import Mathlib

/-!
Shallow embedding of the data-access layer of the ai-stock-analyze dashboard
(src/services/finmind.ts, src/unnamed/part_002 alias services/gemini.ts).

Modelling conventions:
* Each exported async function becomes a total Lean function.  The outcome of
  every network fetch together with its JSON parse is an explicit argument of
  type `Except FetchErr payload`: `.error e` models a rejected fetch, a non-ok
  HTTP status where the source checks `res.ok`, or a JSON parse failure;
  `.ok none` models a response body without a `data` field; `.ok (some xs)`
  models a response whose `data` array is `xs`.
* Functions whose source wraps the whole body in try/catch and returns a
  status value from the catch are total (return a plain result value); the
  gemini call, whose catch re-throws, keeps the `Except` type.
* JavaScript numbers are modelled as `ℚ` (the claims only concern exact
  decimal arithmetic); `x.toFixed(2)` followed by `parseFloat` is `round2`,
  `toFixed(0)` is `round0` (ECMAScript toFixed picks the larger candidate on
  ties, i.e. rounds half towards +∞).
* The module-level mutable `stockListCache` is threaded explicitly: the
  cache-reading functions take the cache state and return the new state
  together with a `requested` flag recording whether a network request for the
  stock list was issued.
-/

/-- Rounding used to model `parseFloat(x.toFixed(2))`. -/
def round2 (q : ℚ) : ℚ := (⌊q * 100 + 1/2⌋ : ℚ) / 100

/-- Rounding used to model `x.toFixed(0)` (rendered number kept as an integer). -/
def round0 (q : ℚ) : Int := ⌊q + 1/2⌋

/-- Failure causes of a fetch-and-parse round trip; the source code catches
all of them in the same `catch` block. -/
inductive FetchErr where
  | network
  | badStatus
  | parseFail
deriving DecidableEq, Repr

/-- One element of the `TaiwanStockInfo` list (fields used by the source). -/
structure StockEntry where
  stock_id : String
  stock_name : String
deriving DecidableEq, Repr

/-- One element of a `TaiwanStockPrice` series (fields used by the source). -/
structure PriceBar where
  date : String
  close : ℚ
  tradingVolume : ℚ
deriving DecidableEq, Repr

/-- One element of a `TaiwanStockPER` series (fields used by the source). -/
structure PerBar where
  per : ℚ
  pbr : ℚ
deriving DecidableEq, Repr

/-- One element of an institutional-investors series (fields used by the
source): date, investor-class name, buy volume, sell volume. -/
structure InstRecord where
  date : String
  name : String
  buy : Int
  sell : Int
deriving DecidableEq, Repr

/-- `s.trim()` on JavaScript strings: strip leading and trailing
whitespace. -/
def jsTrim (s : String) : String :=
  ⟨((s.toList.dropWhile Char.isWhitespace).reverse.dropWhile Char.isWhitespace).reverse⟩

/-- Substring containment on character lists: `sub` occurs contiguously in
the second argument. -/
def hasInfix (sub : List Char) : List Char → Bool
  | [] => sub.isEmpty
  | c :: rest => sub.isPrefixOf (c :: rest) || hasInfix sub rest

/-- `s.includes(sub)` on JavaScript strings: substring containment. -/
def strIncludes (s sub : String) : Bool := hasInfix sub.toList s.toList

/-- `data[data.length - 2] || latest`: the second-to-last element when the
series has at least two points, otherwise the `latest` default. -/
def prevOr (data : List PriceBar) (latest : PriceBar) : PriceBar :=
  if 2 ≤ data.length then (data[data.length - 2]?).getD latest else latest

/-- Result of `getStockList` plus the threaded cache state and whether a
network request was issued. -/
structure ListResult where
  list : List StockEntry
  cache : Option (List StockEntry)
  requested : Bool
deriving DecidableEq, Repr

/-- `getStockList` (finmind.ts): returns the cached list when present without
fetching; otherwise fetches, caches the `data` field when present (an empty
array is truthy in JavaScript and is cached), and returns `[]` on a missing
`data` field or on any caught failure. -/
def getStockList (cache : Option (List StockEntry))
    (resp : Except FetchErr (Option (List StockEntry))) : ListResult :=
  match cache with
  | some l => ⟨l, some l, false⟩
  | none =>
    match resp with
    | .error _ => ⟨[], none, true⟩
    | .ok none => ⟨[], none, true⟩
    | .ok (some data) => ⟨data, some data, true⟩

/-- Result of `resolveStockId` plus threaded cache state. -/
structure ResolveResult where
  result : Option String
  cache : Option (List StockEntry)
  requested : Bool
deriving DecidableEq, Repr

/-- `resolveStockId` (finmind.ts): trim; empty ⇒ null; all digits ⇒ the
trimmed string; else first entry whose name or id equals the trimmed query;
else first entry whose name contains it; else null. -/
def resolveStockId (query : String) (cache : Option (List StockEntry))
    (resp : Except FetchErr (Option (List StockEntry))) : ResolveResult :=
  let trimmed := jsTrim query
  if trimmed = "" then ⟨none, cache, false⟩
  else if trimmed.toList.all Char.isDigit then ⟨some trimmed, cache, false⟩
  else
    let r := getStockList cache resp
    match r.list.find? (fun s => s.stock_name == trimmed || s.stock_id == trimmed) with
    | some m => ⟨some m.stock_id, r.cache, r.requested⟩
    | none =>
      match r.list.find? (fun s => strIncludes s.stock_name trimmed) with
      | some m => ⟨some m.stock_id, r.cache, r.requested⟩
      | none => ⟨none, r.cache, r.requested⟩

/-- Result of `fetchStockName` plus threaded cache state. -/
structure NameResult where
  name : String
  cache : Option (List StockEntry)
  requested : Bool
deriving DecidableEq, Repr

/-- `fetchStockName` (finmind.ts): the name of the first entry whose id
matches, else the id itself. -/
def fetchStockName (stockId : String) (cache : Option (List StockEntry))
    (resp : Except FetchErr (Option (List StockEntry))) : NameResult :=
  let r := getStockList cache resp
  match r.list.find? (fun s => s.stock_id == stockId) with
  | some m => ⟨m.stock_name, r.cache, r.requested⟩
  | none => ⟨stockId, r.cache, r.requested⟩

/-- Return value of `fetchMarketIndex`: `status: 'success'` with its payload
fields, `status: 'nodata'`, or `status: 'error'`. -/
inductive MarketIndexResult where
  | success (price change pct : ℚ) (volume : Int) (date : String)
  | nodata
  | error
deriving DecidableEq, Repr

/-- `fetchMarketIndex` (finmind.ts). -/
def fetchMarketIndex (resp : Except FetchErr (Option (List PriceBar))) :
    MarketIndexResult :=
  match resp with
  | .error _ => .error
  | .ok none => .nodata
  | .ok (some data) =>
    match data.getLast? with
    | none => .nodata
    | some latest =>
      let prev := prevOr data latest
      let change := latest.close - prev.close
      let pct := change / prev.close * 100
      .success latest.close (round2 change) (round2 pct)
        (round0 (latest.tradingVolume / 100000000)) latest.date

/-- Return value of `fetchInstitutionalInvestors`: `apiStatus: 'success'`
with total, date and the Buy/Sell marker, or `nodata`, or `error`. -/
inductive FundFlowResult where
  | success (total : ℚ) (date : String) (status : String)
  | nodata
  | error
deriving DecidableEq, Repr

/-- Net flow `buy - sell` of one record. -/
def netOf (r : InstRecord) : Int := r.buy - r.sell

/-- `fetchInstitutionalInvestors` (finmind.ts): sums `buy - sell` over every
record of the last record's date, scales to 億 and rounds. -/
def fetchInstitutionalInvestors
    (resp : Except FetchErr (Option (List InstRecord))) : FundFlowResult :=
  match resp with
  | .error _ => .error
  | .ok none => .nodata
  | .ok (some data) =>
    match data.getLast? with
    | none => .nodata
    | some lastRec =>
      let lastDate := lastRec.date
      let dailyData := data.filter (fun d => d.date == lastDate)
      let totalNet : Int := dailyData.foldl (fun acc item => acc + (item.buy - item.sell)) 0
      .success (round2 ((totalNet : ℚ) / 100000000)) lastDate
        (if 0 ≤ totalNet then "Buy" else "Sell")

/-- Return value of `fetchStockInstitutionalData`. -/
inductive InstDataResult where
  | success (date : String) (foreignNet trustNet dealerNet totalNet : Int)
  | nodata
  | error
deriving DecidableEq, Repr

/-- The loop body of the forEach in `fetchStockInstitutionalData`. -/
def instStep (acc : Int × Int × Int) (item : InstRecord) : Int × Int × Int :=
  let net := item.buy - item.sell
  if item.name == "Foreign_Investor" then (acc.1 + net, acc.2.1, acc.2.2)
  else if item.name == "Investment_Trust" then (acc.1, acc.2.1 + net, acc.2.2)
  else if item.name == "Dealer" then (acc.1, acc.2.1, acc.2.2 + net)
  else acc

/-- The forEach loop of `fetchStockInstitutionalData`: one pass accumulating
the three class totals. -/
def accumInst (dailyData : List InstRecord) : Int × Int × Int :=
  dailyData.foldl instStep (0, 0, 0)

/-- `fetchStockInstitutionalData` (finmind.ts). -/
def fetchStockInstitutionalData
    (resp : Except FetchErr (Option (List InstRecord))) : InstDataResult :=
  match resp with
  | .error _ => .error
  | .ok none => .nodata
  | .ok (some data) =>
    match data.getLast? with
    | none => .nodata
    | some lastRec =>
      let lastDate := lastRec.date
      let dailyData := data.filter (fun d => d.date == lastDate)
      let acc := accumInst dailyData
      .success lastDate acc.1 acc.2.1 acc.2.2 (acc.1 + acc.2.1 + acc.2.2)

/-- Return value of `fetchStockData`: the success record, or the
`{ error: true, id }` flag returned both on empty/missing price data and from
the catch block. -/
inductive StockDataResult where
  | success (id name : String) (price change pct : ℚ) (volume : ℚ)
      (per pbr : Option ℚ) (history : List PriceBar) (lastUpdate : String)
  | errorFlag (id : String)
deriving DecidableEq, Repr

/-- `fetchStockData` (finmind.ts).  `name` is the value resolved by
`fetchStockName` (that call never throws); `priceResp` and `perResp` are the
two fetch outcomes.  A missing or empty price array returns the error flag
before the PER fetch is issued; a PER fetch failure is thrown inside the try
block and caught into the same flag. -/
def fetchStockData (stockId name : String)
    (priceResp : Except FetchErr (Option (List PriceBar)))
    (perResp : Except FetchErr (Option (List PerBar))) : StockDataResult :=
  match priceResp with
  | .error _ => .errorFlag stockId
  | .ok none => .errorFlag stockId
  | .ok (some historyData) =>
    match historyData.getLast? with
    | none => .errorFlag stockId
    | some latest =>
      match perResp with
      | .error _ => .errorFlag stockId
      | .ok perData =>
        let latestPER : Option PerBar :=
          match perData with
          | some perList => perList.getLast?
          | none => none
        let prev := prevOr historyData latest
        .success stockId name latest.close
          (round2 (latest.close - prev.close))
          (round2 ((latest.close - prev.close) / prev.close * 100))
          latest.tradingVolume
          (latestPER.map (·.per)) (latestPER.map (·.pbr))
          historyData latest.date

/-- Failure causes of the gemini round trip: a rejected `generateContent`
request, or an unparseable response text. -/
inductive GeminiErr where
  | requestFailed
  | unparseable
deriving DecidableEq, Repr

/-- The fields of the gemini response the source reads. -/
structure GeminiResponse where
  text : Option String
deriving DecidableEq, Repr

/-- The parsed analysis payload (opaque to the claims; only its flow
matters). -/
structure AIAnalysis where
  raw : String
deriving DecidableEq, Repr

/-- `getGeminiAnalysis` (services/gemini.ts): issues the request, parses
`response.text || '{}'`, and on any failure logs and re-throws.  `parse`
models `JSON.parse`. -/
def getGeminiAnalysis
    (genOutcome : Except GeminiErr GeminiResponse)
    (parse : String → Except GeminiErr AIAnalysis) :
    Except GeminiErr AIAnalysis :=
  match genOutcome with
  | .error e => .error e
  | .ok resp =>
    match parse (resp.text.getD "\x7b\x7d") with
    | .error e => .error e
    | .ok a => .ok a

/-! ### Specification-side definitions -/

/-- The resolution order asserted by claim C1, following the claim's words:
a query that after trimming consists only of digits is returned itself
unchanged; otherwise the identifier of the first entry whose name is exactly
the query; otherwise the identifier of the first entry whose name contains
the query as a substring; otherwise absent. -/
def resolveSpecClaim (query : String) (list : List StockEntry) : Option String :=
  if jsTrim query ≠ "" ∧ (jsTrim query).toList.all Char.isDigit then some query
  else
    match list.find? (fun s => s.stock_name == query) with
    | some m => some m.stock_id
    | none =>
      match list.find? (fun s => strIncludes s.stock_name query) with
      | some m => some m.stock_id
      | none => none

/-- The amended resolution order: empty trimmed query is absent; a trimmed
query of digits is returned trimmed; then first exact name-or-identifier
match on the trimmed query; then first substring match of the trimmed query
in a name; otherwise absent. -/
def resolveSpecAmended (query : String) (list : List StockEntry) : Option String :=
  let t := jsTrim query
  if t = "" then none
  else if t.toList.all Char.isDigit then some t
  else
    match list.find? (fun s => s.stock_name == t || s.stock_id == t) with
    | some m => some m.stock_id
    | none =>
      match list.find? (fun s => strIncludes s.stock_name t) with
      | some m => some m.stock_id
      | none => none

/-- Net flow of one investor class `cls` on date `d`: the sum of
`buy - sell` over the records of date `d` whose investor-class name is
`cls` (the specification's wording). -/
def classNetSum (records : List InstRecord) (d cls : String) : Int :=
  (((records.filter (fun r => r.date == d)).filter (fun r => r.name == cls)).map netOf).sum

/-- Net flow summed over every record of date `d`, regardless of investor
class. -/
def dateNetSum (records : List InstRecord) (d : String) : Int :=
  ((records.filter (fun r => r.date == d)).map netOf).sum

/-- Class-filtered net-flow sum over an already date-filtered list. -/
def sumFor (cls : String) (l : List InstRecord) : Int :=
  ((l.filter (fun r => r.name == cls)).map netOf).sum

/-! ### Result projections -/

/-- The `change` field of a successful market-index result. -/
def MarketIndexResult.change? : MarketIndexResult → Option ℚ
  | .success _ c _ _ _ => some c
  | _ => none

/-- The `pct` field of a successful market-index result. -/
def MarketIndexResult.pct? : MarketIndexResult → Option ℚ
  | .success _ _ p _ _ => some p
  | _ => none

/-- The `change` field of a successful stock-data result. -/
def StockDataResult.change? : StockDataResult → Option ℚ
  | .success _ _ _ c _ _ _ _ _ _ => some c
  | _ => none

/-- The `pct` field of a successful stock-data result. -/
def StockDataResult.pct? : StockDataResult → Option ℚ
  | .success _ _ _ _ p _ _ _ _ _ => some p
  | _ => none

/-- The `foreign` field of a successful institutional-data result. -/
def InstDataResult.foreign? : InstDataResult → Option Int
  | .success _ f _ _ _ => some f
  | _ => none

/-- The `trust` field of a successful institutional-data result. -/
def InstDataResult.trust? : InstDataResult → Option Int
  | .success _ _ t _ _ => some t
  | _ => none

/-- The `dealer` field of a successful institutional-data result. -/
def InstDataResult.dealer? : InstDataResult → Option Int
  | .success _ _ _ d _ => some d
  | _ => none

/-- The `total` field of a successful institutional-data result. -/
def InstDataResult.total? : InstDataResult → Option Int
  | .success _ _ _ _ t => some t
  | _ => none

/-- The `total` field of a successful fund-flow result. -/
def FundFlowResult.total? : FundFlowResult → Option ℚ
  | .success t _ _ => some t
  | _ => none

/-! ### Helper lemmas -/

/-- Rounding zero to two decimals gives zero. -/
lemma round2_zero : round2 0 = 0 := by
  norm_num [round2]

/-- The source's running-sum loop equals the initial value plus the net-flow
sum of the list. -/
lemma foldl_net_eq (l : List InstRecord) (a : Int) :
    l.foldl (fun acc item => acc + (item.buy - item.sell)) a = a + (l.map netOf).sum := by
  induction l generalizing a with
  | nil => simp
  | cons x xs ih => simp [List.foldl_cons, ih, netOf, add_assoc]

/-- The three-accumulator forEach loop computes the three class-filtered
sums, shifted by the initial accumulator. -/
lemma foldl_instStep_eq (l : List InstRecord) :
    ∀ a b c : Int,
      l.foldl instStep (a, b, c) =
        (a + sumFor "Foreign_Investor" l, b + sumFor "Investment_Trust" l,
          c + sumFor "Dealer" l) := by
  induction l with
  | nil => intro a b c; simp [sumFor]
  | cons x xs ih =>
    intro a b c
    by_cases hF : x.name = "Foreign_Investor"
    · simp [List.foldl_cons, instStep, hF, ih, sumFor, List.filter_cons, netOf, add_assoc]
    · by_cases hT : x.name = "Investment_Trust"
      · simp [List.foldl_cons, instStep, hF, hT, ih, sumFor, List.filter_cons, netOf, add_assoc]
      · by_cases hD : x.name = "Dealer"
        · simp [List.foldl_cons, instStep, hF, hT, hD, ih, sumFor, List.filter_cons, netOf, add_assoc]
        · simp [List.foldl_cons, instStep, hF, hT, hD, ih, sumFor, List.filter_cons, netOf]

/-- `accumInst` computes the three class-filtered sums. -/
lemma accumInst_eq (l : List InstRecord) :
    accumInst l =
      (sumFor "Foreign_Investor" l, sumFor "Investment_Trust" l, sumFor "Dealer" l) := by
  simpa using foldl_instStep_eq l 0 0 0

/-- The last element of a list ending in the pair `[p, q]` is `q`. -/
lemma getLast?_append_pair {α : Type} (l : List α) (p q : α) :
    (l ++ [p, q]).getLast? = some q := by
  rw [List.getLast?_append_of_ne_nil l (by simp)]
  rfl

/-- In a series ending in the pair `[p, q]`, the source's
`data[data.length - 2] || latest` expression selects `p`. -/
lemma prevOr_append_pair (l : List PriceBar) (p q latest : PriceBar) :
    prevOr (l ++ [p, q]) latest = p := by
  have hlen : (l ++ [p, q]).length = l.length + 2 := by simp
  have h2 : 2 ≤ (l ++ [p, q]).length := by omega
  rw [prevOr, if_pos h2, hlen]
  have hidx : l.length + 2 - 2 = l.length := by omega
  rw [hidx, List.getElem?_append_right (Nat.le_refl _)]
  simp

/-- A singleton series selects its only element as the default previous
bar. -/
lemma prevOr_singleton (p latest : PriceBar) : prevOr [p] latest = latest := by
  simp [prevOr]

/-! ### Claim theorems -/

/-- C1 counterexample: with the cached list [(identifier "A", name "B")],
the query "A" is not numeric, matches no entry's name exactly, and is
contained in no entry's name, so under the claimed resolution order it must
yield an absent result; but `resolveStockId` resolves it to "A", through the
exact `stock_id` comparison the claim's order omits. -/
theorem C1_counterexample :
    resolveSpecClaim "A" [⟨"A", "B"⟩] = none ∧
    (resolveStockId "A" (some [⟨"A", "B"⟩]) (.ok none)).result = some "A" := by
  constructor <;> decide

/-- C1 (amended): resolution proceeds in this order, first match winning:
a query trimming to the empty string yields an absent result; a trimmed
query consisting only of digits is returned trimmed; otherwise the first
entry whose name or identifier is exactly the trimmed query gives its
identifier; otherwise the first entry whose name contains the trimmed query
as a substring gives its identifier; otherwise the result is absent. -/
theorem C1_resolution_order (q : String) (cache : Option (List StockEntry))
    (resp : Except FetchErr (Option (List StockEntry))) :
    (resolveStockId q cache resp).result =
      resolveSpecAmended q (getStockList cache resp).list := by
  unfold resolveStockId resolveSpecAmended
  dsimp only
  split
  · rfl
  split
  · rfl
  split
  · rfl
  split <;> rfl

/-- C4 counterexample: on an upstream response whose data array is empty,
`fetchStockData` does not return a distinguishable "no data" status value:
it returns its generic `{ error: true, id }` flag, the very value it also
returns on a network failure. -/
theorem C4_counterexample :
    fetchStockData "2330" "t" (.ok (some [])) (.ok none) = .errorFlag "2330" ∧
    fetchStockData "2330" "t" (.ok (some [])) (.ok none) =
      fetchStockData "2330" "t" (.error .network) (.ok none) := by
  constructor <;> rfl

/-- C4 (amended): on an empty or missing upstream data array,
`fetchMarketIndex`, `fetchInstitutionalInvestors` and
`fetchStockInstitutionalData` return their distinct `nodata` status value,
while `fetchStockData` returns its generic error flag `{ error: true, id }`;
none of the four operations throws (each is a total function into its
result type). -/
theorem C4_empty_data_status :
    fetchMarketIndex (.ok none) = .nodata ∧
    fetchMarketIndex (.ok (some [])) = .nodata ∧
    fetchInstitutionalInvestors (.ok none) = .nodata ∧
    fetchInstitutionalInvestors (.ok (some [])) = .nodata ∧
    fetchStockInstitutionalData (.ok none) = .nodata ∧
    fetchStockInstitutionalData (.ok (some [])) = .nodata ∧
    (∀ (sid nm : String) (perResp : Except FetchErr (Option (List PerBar))),
      fetchStockData sid nm (.ok none) perResp = .errorFlag sid ∧
      fetchStockData sid nm (.ok (some [])) perResp = .errorFlag sid) :=
  ⟨rfl, rfl, rfl, rfl, rfl, rfl, fun _ _ _ => ⟨rfl, rfl⟩⟩

/-- C5: every failure cause of a fetch round trip (rejected request, non-ok
HTTP status, JSON parse failure) is caught and collapsed to the same error
value, returned normally: `status: 'error'` for the market-index and
institutional fetches, the `{ error: true, id }` flag for `fetchStockData`
(for a failure of either of its fetches); the returned value does not
depend on the failure cause, and no exception propagates (each operation is
a total function into its result type). -/
theorem C5_failure_collapse :
    (∀ e : FetchErr, fetchMarketIndex (.error e) = .error) ∧
    (∀ e : FetchErr, fetchInstitutionalInvestors (.error e) = .error) ∧
    (∀ e : FetchErr, fetchStockInstitutionalData (.error e) = .error) ∧
    (∀ (e : FetchErr) (sid nm : String)
        (perResp : Except FetchErr (Option (List PerBar))),
      fetchStockData sid nm (.error e) perResp = .errorFlag sid) ∧
    (∀ (e : FetchErr) (sid nm : String) (priceData : Option (List PriceBar)),
      fetchStockData sid nm (.ok priceData) (.error e) = .errorFlag sid) := by
  refine ⟨fun e => rfl, fun e => rfl, fun e => rfl, fun e sid nm perResp => rfl, ?_⟩
  intro e sid nm priceData
  cases priceData with
  | none => rfl
  | some data =>
    cases h : data.getLast? with
    | none => simp [fetchStockData, h]
    | some latest => simp [fetchStockData, h]

/-- C6: unlike the data-fetch operations, `getGeminiAnalysis` re-throws: a
failed generate request propagates as the same exception, and an
unparseable response text propagates the parse exception, instead of being
converted into an error flag or status value. -/
theorem C6_gemini_rethrow :
    (∀ (e : GeminiErr) (parse : String → Except GeminiErr AIAnalysis),
      getGeminiAnalysis (.error e) parse = .error e) ∧
    (∀ (resp : GeminiResponse) (e : GeminiErr),
      getGeminiAnalysis (.ok resp) (fun _ => .error e) = .error e) :=
  ⟨fun _ _ => rfl, fun _ _ => rfl⟩

/-- C7: the stock-list cache is written only by a successful first fetch and
never invalidated: with a populated cache, `getStockList` returns the cached
list, issues no request and leaves the cache unchanged, and neither
`resolveStockId` nor `fetchStockName` issues a request or changes the
populated cache, whatever the query and whatever a new fetch would have
returned. -/
theorem C7_cache_once :
    (∀ (l : List StockEntry) (resp : Except FetchErr (Option (List StockEntry))),
      getStockList (some l) resp = ⟨l, some l, false⟩) ∧
    (∀ d : List StockEntry, getStockList none (.ok (some d)) = ⟨d, some d, true⟩) ∧
    (∀ (l : List StockEntry) (q : String)
        (resp : Except FetchErr (Option (List StockEntry))),
      (resolveStockId q (some l) resp).cache = some l ∧
      (resolveStockId q (some l) resp).requested = false) ∧
    (∀ (l : List StockEntry) (sid : String)
        (resp : Except FetchErr (Option (List StockEntry))),
      (fetchStockName sid (some l) resp).cache = some l ∧
      (fetchStockName sid (some l) resp).requested = false) := by
  refine ⟨fun l resp => rfl, fun d => rfl, ?_, ?_⟩
  · intro l q resp
    unfold resolveStockId
    dsimp only
    split
    · exact ⟨rfl, rfl⟩
    split
    · exact ⟨rfl, rfl⟩
    split
    · exact ⟨rfl, rfl⟩
    split
    · exact ⟨rfl, rfl⟩
    exact ⟨rfl, rfl⟩
  · intro l sid resp
    unfold fetchStockName
    dsimp only
    split <;> exact ⟨rfl, rfl⟩

/-- C8: a query trimming to the empty string resolves to an absent result
without touching the cache or the network, independently of the cached
list; a trimmed all-digit query resolves to the trimmed string, likewise
without a request; in particular " 123 " resolves to "123", not to the
original input. -/
theorem C8_trim_guard :
    (∀ (q : String) (cache : Option (List StockEntry))
        (resp : Except FetchErr (Option (List StockEntry))),
      jsTrim q = "" → resolveStockId q cache resp = ⟨none, cache, false⟩) ∧
    (∀ (q : String) (cache : Option (List StockEntry))
        (resp : Except FetchErr (Option (List StockEntry))),
      jsTrim q ≠ "" → (jsTrim q).toList.all Char.isDigit = true →
        resolveStockId q cache resp = ⟨some (jsTrim q), cache, false⟩) ∧
    (resolveStockId " 123 " none (.ok none) = ⟨some "123", none, false⟩ ∧
      (some "123" : Option String) ≠ some " 123 ") := by
  refine ⟨?_, ?_, ?_, ?_⟩
  · intro q cache resp h
    unfold resolveStockId
    dsimp only
    rw [if_pos h]
  · intro q cache resp h1 h2
    unfold resolveStockId
    dsimp only
    rw [if_neg h1, if_pos h2]
  · decide
  · decide

/-- C8 witness: concrete instances of both guard branches. -/
theorem C8_trim_guard_witness :
    resolveStockId "   " (some []) (.error .network) = ⟨none, some [], false⟩ ∧
    resolveStockId " 42 " none (.ok none) = ⟨some "42", none, false⟩ :=
  ⟨C8_trim_guard.1 "   " (some []) (.error .network) (by decide),
    by
      have h := C8_trim_guard.2.1 " 42 " none (.ok none) (by decide) (by decide)
      simpa using h⟩

/-- C9 counterexample: when the cached list holds an entry whose listed name
is the empty string, `fetchStockName` returns that empty name for the
non-empty identifier "2330", so the claim's "never empty for a non-empty
stockId" fails. -/
theorem C9_counterexample :
    (fetchStockName "2330" (some [⟨"2330", ""⟩]) (.ok none)).name = "" ∧
    ("2330" : String) ≠ "" := by
  constructor <;> decide

/-- C9 (amended): `fetchStockName` returns the listed name of the first
cached entry whose identifier matches, and the identifier itself when no
entry matches; the result is always present (a plain string), and it is
non-empty whenever the identifier is non-empty and every cached entry's
listed name is non-empty. -/
theorem C9_name_fallback :
    (∀ (sid : String) (cache : Option (List StockEntry))
        (resp : Except FetchErr (Option (List StockEntry))) (m : StockEntry),
      (getStockList cache resp).list.find? (fun s => s.stock_id == sid) = some m →
        (fetchStockName sid cache resp).name = m.stock_name) ∧
    (∀ (sid : String) (cache : Option (List StockEntry))
        (resp : Except FetchErr (Option (List StockEntry))),
      (getStockList cache resp).list.find? (fun s => s.stock_id == sid) = none →
        (fetchStockName sid cache resp).name = sid) ∧
    (∀ (sid : String) (cache : Option (List StockEntry))
        (resp : Except FetchErr (Option (List StockEntry))),
      sid ≠ "" →
      (∀ s ∈ (getStockList cache resp).list, s.stock_name ≠ "") →
        (fetchStockName sid cache resp).name ≠ "") := by
  refine ⟨?_, ?_, ?_⟩
  · intro sid cache resp m h
    simp [fetchStockName, h]
  · intro sid cache resp h
    simp [fetchStockName, h]
  · intro sid cache resp hsid hnames
    cases h : (getStockList cache resp).list.find? (fun s => s.stock_id == sid) with
    | none => simpa [fetchStockName, h] using hsid
    | some m =>
      have hm := List.mem_of_find?_eq_some h
      simpa [fetchStockName, h] using hnames m hm

/-- C9 witness: both branches and the non-emptiness conclusion at concrete
inputs. -/
theorem C9_name_fallback_witness :
    (fetchStockName "2330" (some [⟨"2330", "台積電"⟩]) (.ok none)).name = "台積電" ∧
    (fetchStockName "9999" (some [⟨"2330", "台積電"⟩]) (.ok none)).name = "9999" ∧
    (fetchStockName "2330" (some [⟨"2330", "台積電"⟩]) (.ok none)).name ≠ "" :=
  ⟨C9_name_fallback.1 "2330" (some [⟨"2330", "台積電"⟩]) (.ok none) ⟨"2330", "台積電"⟩ (by decide),
    C9_name_fallback.2.1 "9999" (some [⟨"2330", "台積電"⟩]) (.ok none) (by decide),
    C9_name_fallback.2.2 "2330" (some [⟨"2330", "台積電"⟩]) (.ok none) (by decide) (by decide)⟩

/-- Executable lexicographic order on strings viewed as character lists
(ISO date strings compare chronologically in this order). -/
def strLeB : List Char → List Char → Bool
  | [], _ => true
  | _ :: _, [] => false
  | a :: as, b :: bs => if a < b then true else if a = b then strLeB as bs else false

/-- C2: in a price series ending in the bars p then q (two or more points),
both the market-index and the per-stock computation return
change = round2(q.close - p.close) and
pct = round2((q.close - p.close) / p.close * 100); in a singleton series the
previous bar defaults to the latest, so change is round2(0) = 0; and the
concrete two-point series [close 100, close 105] yields change 5 and
pct 5 in both computations. -/
theorem C2_delta_pct :
    (∀ (l : List PriceBar) (p q : PriceBar),
      ((fetchMarketIndex (.ok (some (l ++ [p, q])))).change? =
          some (round2 (q.close - p.close)) ∧
        (fetchMarketIndex (.ok (some (l ++ [p, q])))).pct? =
          some (round2 ((q.close - p.close) / p.close * 100))) ∧
      ∀ (sid nm : String) (perData : Option (List PerBar)),
        (fetchStockData sid nm (.ok (some (l ++ [p, q]))) (.ok perData)).change? =
            some (round2 (q.close - p.close)) ∧
        (fetchStockData sid nm (.ok (some (l ++ [p, q]))) (.ok perData)).pct? =
            some (round2 ((q.close - p.close) / p.close * 100))) ∧
    (∀ (p : PriceBar) (sid nm : String) (perData : Option (List PerBar)),
      (fetchMarketIndex (.ok (some [p]))).change? = some 0 ∧
      (fetchStockData sid nm (.ok (some [p])) (.ok perData)).change? = some 0) ∧
    ((fetchMarketIndex (.ok (some [⟨"d1", 100, 0⟩, ⟨"d2", 105, 0⟩]))).change? = some 5 ∧
      (fetchMarketIndex (.ok (some [⟨"d1", 100, 0⟩, ⟨"d2", 105, 0⟩]))).pct? = some 5 ∧
      (fetchStockData "s" "n" (.ok (some [⟨"d1", 100, 0⟩, ⟨"d2", 105, 0⟩])) (.ok none)).change? =
          some 5 ∧
      (fetchStockData "s" "n" (.ok (some [⟨"d1", 100, 0⟩, ⟨"d2", 105, 0⟩])) (.ok none)).pct? =
          some 5) := by
  refine ⟨?_, ?_, ?_⟩
  · intro l p q
    have hlast := getLast?_append_pair l p q
    have hprev := prevOr_append_pair l p q q
    refine ⟨⟨?_, ?_⟩, ?_⟩
    · simp only [fetchMarketIndex, hlast, hprev, MarketIndexResult.change?]
    · simp only [fetchMarketIndex, hlast, hprev, MarketIndexResult.pct?]
    · intro sid nm perData
      constructor
      · simp only [fetchStockData, hlast, hprev, StockDataResult.change?]
      · simp only [fetchStockData, hlast, hprev, StockDataResult.pct?]
  · intro p sid nm perData
    constructor
    · simp only [fetchMarketIndex, List.getLast?_singleton, prevOr_singleton, sub_self,
        round2_zero, MarketIndexResult.change?]
    · simp only [fetchStockData, List.getLast?_singleton, prevOr_singleton, sub_self,
        round2_zero, StockDataResult.change?]
  · refine ⟨?_, ?_, ?_, ?_⟩
    · simp [fetchMarketIndex, prevOr, MarketIndexResult.change?]
      norm_num [round2]
    · simp [fetchMarketIndex, prevOr, MarketIndexResult.pct?]
      norm_num [round2]
    · simp [fetchStockData, prevOr, StockDataResult.change?]
      norm_num [round2]
    · simp [fetchStockData, prevOr, StockDataResult.pct?]
      norm_num [round2]

/-- C3: for a non-empty institutional series whose last record carries the
most recent date (every record's date is at most the last record's, in the
chronological order of ISO date strings), the result fields foreign, trust
and dealer each equal the sum of buy−sell over the records of that date
whose investor-class name is Foreign_Investor, Investment_Trust and Dealer
respectively, and the total field equals foreign + trust + dealer
exactly. -/
theorem C3_inst_total (data : List InstRecord) (lastRec : InstRecord)
    (hlast : data.getLast? = some lastRec)
    (hmax : ∀ x ∈ data, strLeB x.date.toList lastRec.date.toList = true) :
    (fetchStockInstitutionalData (.ok (some data))).foreign? =
        some (classNetSum data lastRec.date "Foreign_Investor") ∧
    (fetchStockInstitutionalData (.ok (some data))).trust? =
        some (classNetSum data lastRec.date "Investment_Trust") ∧
    (fetchStockInstitutionalData (.ok (some data))).dealer? =
        some (classNetSum data lastRec.date "Dealer") ∧
    (fetchStockInstitutionalData (.ok (some data))).total? =
        some (classNetSum data lastRec.date "Foreign_Investor" +
          classNetSum data lastRec.date "Investment_Trust" +
          classNetSum data lastRec.date "Dealer") := by
  simp only [fetchStockInstitutionalData, hlast, accumInst_eq]
  exact ⟨rfl, rfl, rfl, rfl⟩

/-- C3 witness: a concrete four-record series over two dates; records of the
older date and of the unlisted class are excluded, and the total field is
15 + 3 + 5. -/
theorem C3_inst_total_witness :
    (fetchStockInstitutionalData (.ok (some
        [⟨"2024-01-01", "Foreign_Investor", 10, 3⟩,
          ⟨"2024-01-02", "Foreign_Investor", 20, 5⟩,
          ⟨"2024-01-02", "Dealer", 7, 2⟩,
          ⟨"2024-01-02", "Investment_Trust", 4, 1⟩]))).total? = some 23 :=
  Eq.trans
    (C3_inst_total
      [⟨"2024-01-01", "Foreign_Investor", 10, 3⟩,
        ⟨"2024-01-02", "Foreign_Investor", 20, 5⟩,
        ⟨"2024-01-02", "Dealer", 7, 2⟩,
        ⟨"2024-01-02", "Investment_Trust", 4, 1⟩]
      ⟨"2024-01-02", "Investment_Trust", 4, 1⟩ (by decide) (by decide)).2.2.2
    (by decide)

/-- C10: the total of `fetchStockInstitutionalData` counts only the three
classes Foreign_Investor, Investment_Trust and Dealer among the last date's
records, whereas the total of `fetchInstitutionalInvestors` is the rounded
sum of buy−sell over every record of the last date regardless of class; in
particular a sole record of class Foreign_Dealer_Self contributes nothing
to the former and its full net to the latter. -/
theorem C10_class_scope :
    (∀ (r : InstRecord) (rs : List InstRecord) (lastRec : InstRecord),
      (r :: rs).getLast? = some lastRec →
        (fetchStockInstitutionalData (.ok (some (r :: rs)))).total? =
            some (classNetSum (r :: rs) lastRec.date "Foreign_Investor" +
              classNetSum (r :: rs) lastRec.date "Investment_Trust" +
              classNetSum (r :: rs) lastRec.date "Dealer") ∧
        (fetchInstitutionalInvestors (.ok (some (r :: rs)))).total? =
            some (round2 ((dateNetSum (r :: rs) lastRec.date : ℚ) / 100000000))) ∧
    ((fetchStockInstitutionalData
        (.ok (some [⟨"d", "Foreign_Dealer_Self", 100000000, 0⟩]))).total? = some 0 ∧
      (fetchInstitutionalInvestors
        (.ok (some [⟨"d", "Foreign_Dealer_Self", 100000000, 0⟩]))).total? = some 1) := by
  refine ⟨?_, ?_, ?_⟩
  · intro r rs lastRec h
    constructor
    · simp only [fetchStockInstitutionalData, h, accumInst_eq]
      rfl
    · simp only [fetchInstitutionalInvestors, h, foldl_net_eq, zero_add]
      rfl
  · decide
  · simp [fetchInstitutionalInvestors, FundFlowResult.total?]
    norm_num [round2]

/-- C10 witness: the class-scope equations instantiated at a singleton
Foreign_Investor record. -/
theorem C10_class_scope_witness :
    (fetchStockInstitutionalData
      (.ok (some [⟨"d", "Foreign_Investor", 10, 0⟩]))).total? = some 10 :=
  Eq.trans
    ((C10_class_scope.1 ⟨"d", "Foreign_Investor", 10, 0⟩ []
      ⟨"d", "Foreign_Investor", 10, 0⟩ (by decide)).1)
    (by decide)
